import Mathlib

/-!
Verification development for the stock-market client library.

The repository wraps two financial data vendors. The substantive logic lives
in two files:

* `AlphaVantage.js` — a generic HTTP response classifier (`_requester`),
  keyed time-series flattening (`timeSeriesIntraday` and friends), and a
  parameterized technical-indicator request builder (`_technical` plus the
  per-indicator wrappers `macd`, `bbands`, `stochf`, ...).
* `Market.js` — Robinhood market objects with a day-by-day trading-calendar
  lookahead (`getNextOpen` / `getNextClose`).

This file gives a shallow embedding of those functions and proves or refutes
the specified properties.  JavaScript numbers used as periods, status codes
and timestamps are modelled as `Int`; price values as `Rat`; JSON values as
an inductive `Json`; the external builtins `JSON.parse`, `new Date(...)` and
`Number(...)` are taken as explicit function parameters of the embedding.
-/

/-- Model of a parsed JSON value.  An object is its key/value list in
JavaScript key-enumeration order. -/
inductive Json where
  | null : Json
  | bool : Bool → Json
  | num : Int → Json
  | str : String → Json
  | arr : List Json → Json
  | obj : List (String × Json) → Json

/-- Model of a transport-level outcome handed to the `request` callback:
either a transport error or an HTTP status code with a raw body. -/
inductive TransportOutcome where
  | transportError (cause : String)
  | httpResult (statusCode : Int) (body : String)

/-- Boolean test that `marker` occurs at the head of a character list. -/
def leadsList : List Char → List Char → Bool
  | [], _ => true
  | _ :: _, [] => false
  | a :: as, b :: bs => a = b && leadsList as bs

/-- Boolean substring occurrence test on character lists, modelling the
JavaScript `body.indexOf(marker) !== -1`. -/
def hasSubstrList (marker : List Char) : List Char → Bool
  | [] => leadsList marker []
  | c :: cs => leadsList marker (c :: cs) || hasSubstrList marker cs

/-- The fixed sentinel substring emitted by the overloaded Alpha Vantage
error page, from `AlphaVantage._requester`. -/
def overloadMarker : String := "application-error.html"

/-- Model of `body.indexOf("application-error.html") !== -1`. -/
def containsMarker (body : String) : Bool :=
  hasSubstrList overloadMarker.toList body.toList

/-- The rejection message built by `_requester` for the overload case. -/
def avOverloadMsg : String :=
  "The Alpha Vantage servers are overloaded. Please try again."

/-- The value a promise from `_requester` is rejected with. -/
inductive Rejection where
  | transport (cause : String)
  | overloaded (msg : String)
  | statusBody (body : String)

/-- Outcome of one `_requester` callback run: the promise is rejected, the
promise is resolved, or a synchronous exception escapes the callback
(which resolves nothing — the JavaScript `JSON.parse` call is not guarded
by any try/catch, so a parse error is thrown, not channelled). -/
inductive ReqOutcome where
  | rejected (r : Rejection)
  | resolved (v : Option Json)
  | thrown

/-- Property lookup on a JSON object model, as in `kvs[k]`; `none` models
the JavaScript `undefined`. -/
def jsGet (kvs : List (String × Json)) (k : String) : Option Json :=
  match kvs.find? (fun p => p.1 = k) with
  | some p => some p.2
  | none => none

/-- Model of `Object.keys`: key-enumeration order of an object, `[]` for
non-objects. -/
def objectKeys : Json → List String
  | .obj kvs => kvs.map Prod.fst
  | _ => []

/-- Model of `json[objectKey]` where `objectKey` may be `undefined`. -/
def jsIndex (j : Json) (k : Option String) : Option Json :=
  match j, k with
  | .obj kvs, some key => jsGet kvs key
  | _, _ => none

/-- Embedding of the response-handling callback of `AlphaVantage._requester`:

* a transport error rejects with that error;
* a body containing the overload marker rejects with the overload message,
  before the status code is inspected;
* a non-200 status rejects with the raw body;
* otherwise `JSON.parse(body)` runs unguarded — on parse failure the
  exception escapes the callback (`thrown`); on success the promise resolves
  with `json[objectKey]`, where `objectKey` is the override when it is a
  truthy string and `Object.keys(json)[1]` otherwise.

The external `JSON.parse` is the explicit parameter `parse`. -/
def requesterClassify (parse : String → Option Json)
    (objectKeyOverride : Option String) (outcome : TransportOutcome) :
    ReqOutcome :=
  match outcome with
  | .transportError cause => .rejected (.transport cause)
  | .httpResult statusCode body =>
    if containsMarker body then .rejected (.overloaded avOverloadMsg)
    else if statusCode ≠ 200 then .rejected (.statusBody body)
    else
      match parse body with
      | none => .thrown
      | some json =>
        let objectKey : Option String :=
          match objectKeyOverride with
          | some k => if k = "" then (objectKeys json)[1]? else some k
          | none => (objectKeys json)[1]?
        .resolved (jsIndex json objectKey)

/-- A parse function standing for `JSON.parse` on bodies that are not valid
JSON: it fails on every input. -/
def parseNone : String → Option Json := fun _ => none

/-- C3: for every HTTP result whose raw body contains the vendor-overload
marker substring, `_requester` classification rejects with the overload
failure regardless of the status code, and never resolves, because the
marker check precedes status-code inspection. -/
theorem requester_overload_marker_precedence
    (parse : String → Option Json) (ov : Option String)
    (status : Int) (body : String)
    (h : containsMarker body = true) :
    requesterClassify parse ov (.httpResult status body)
      = .rejected (.overloaded avOverloadMsg) ∧
    ∀ v, requesterClassify parse ov (.httpResult status body)
      ≠ .resolved v := by
  refine ⟨by simp [requesterClassify, h], fun v hv => ?_⟩
  rw [show requesterClassify parse ov (.httpResult status body)
        = .rejected (.overloaded avOverloadMsg) from by
      simp [requesterClassify, h]] at hv
  exact ReqOutcome.noConfusion hv

/-- Witness for C3: the concrete Scenario C body with status 200 is
classified as the overload rejection, never as a resolution. -/
theorem requester_overload_marker_precedence_witness :
    containsMarker "<html>application-error.html...</html>" = true ∧
    (requesterClassify parseNone none
        (.httpResult 200 "<html>application-error.html...</html>")
      = .rejected (.overloaded avOverloadMsg) ∧
     ∀ v, requesterClassify parseNone none
        (.httpResult 200 "<html>application-error.html...</html>")
      ≠ .resolved v) :=
  ⟨by decide,
   requester_overload_marker_precedence parseNone none 200
     "<html>application-error.html...</html>" (by decide)⟩

/-- C6 (code bug): on a 200 status with no overload marker and a body that
is not valid JSON, `_requester` does not reject with a malformed-body
failure — the unguarded `JSON.parse` throws out of the callback, so the
promise is neither rejected nor resolved. -/
theorem requester_malformed_body_throws :
    requesterClassify parseNone none
        (.httpResult 200 "this is not json") = .thrown ∧
    ∀ r, requesterClassify parseNone none
        (.httpResult 200 "this is not json") ≠ .rejected r := by
  refine ⟨by rfl, fun r hr => ?_⟩
  rw [show requesterClassify parseNone none
        (.httpResult 200 "this is not json") = .thrown from by rfl] at hr
  exact ReqOutcome.noConfusion hr

/-- C10: on a 200 status with no overload marker and a body parsing to a
JSON object, `_requester` with no override resolves with the value stored
under the second key in enumeration order (`Object.keys(json)[1]`), not the
whole payload; a truthy override string selects that named property. -/
theorem requester_second_key_selection
    (parse : String → Option Json) (body : String)
    (kvs : List (String × Json))
    (hm : containsMarker body = false)
    (hp : parse body = some (.obj kvs)) :
    requesterClassify parse none (.httpResult 200 body)
      = .resolved (jsIndex (.obj kvs) ((kvs.map Prod.fst)[1]?)) ∧
    ∀ k, k ≠ "" → requesterClassify parse (some k) (.httpResult 200 body)
      = .resolved (jsGet kvs k) := by
  constructor
  · simp [requesterClassify, hm, hp, objectKeys, jsIndex]
  · intro k hk
    simp [requesterClassify, hm, hp, objectKeys, jsIndex, hk]

/-- A concrete stand-in for `JSON.parse` mapping one body to a two-key
object, for the witness below. -/
def wParse : String → Option Json := fun s =>
  if s = "avbody" then
    some (.obj [("Meta Data", .str "m"), ("Time Series (5min)", .num 7)])
  else none

/-- Witness for C10 at a concrete two-key payload: the default selection
resolves the second value, and an override selects the named property. -/
theorem requester_second_key_selection_witness :
    containsMarker "avbody" = false ∧
    requesterClassify wParse none (.httpResult 200 "avbody")
      = .resolved (some (.num 7)) ∧
    requesterClassify wParse (some "Meta Data") (.httpResult 200 "avbody")
      = .resolved (some (.str "m")) := by
  have h := requester_second_key_selection wParse "avbody"
    [("Meta Data", .str "m"), ("Time Series (5min)", .num 7)]
    (by decide) (by rfl)
  exact ⟨by decide, h.1, h.2 "Meta Data" (by decide)⟩

/-- A value of the query object handed to the `request` module: a string,
a number, or the JavaScript `null`. -/
inductive QVal where
  | s (v : String)
  | n (v : Int)
  | null
deriving DecidableEq

/-- JavaScript object property assignment `query[k] = v`: replaces the
value under an existing key, otherwise appends the new key at the end of
the enumeration order. -/
def objAssign (query : List (String × QVal)) (k : String) (v : QVal) :
    List (String × QVal) :=
  if query.any (fun p => p.1 = k) then
    query.map (fun p => if p.1 = k then (p.1, v) else p)
  else query ++ [(k, v)]

/-- Embedding of the query-building step of `AlphaVantage._technical`: the
base query (function, symbol, interval, time_period, series_type) followed
by `qs.forEach(q => query[q.key] = q.val)` when extras are supplied. -/
def buildTechnicalQuery (type symbol interval : String) (timePeriod : Int)
    (seriesType : String) (qs : Option (List (String × QVal))) :
    List (String × QVal) :=
  let query : List (String × QVal) :=
    [("function", .s type), ("symbol", .s symbol), ("interval", .s interval),
     ("time_period", .n timePeriod), ("series_type", .s seriesType)]
  match qs with
  | none => query
  | some l => l.foldl (fun acc q => objAssign acc q.1 q.2) query

/-- Lift a `Number|null` argument into a query value. -/
def numOrNull : Option Int → QVal
  | some v => .n v
  | none => .null

/-- Lookup of an emitted query parameter by key. -/
def queryVal (q : List (String × QVal)) (k : String) : Option QVal :=
  (q.find? (fun p => p.1 = k)).map Prod.snd

/-- Embedding of the query built by the multi-parameter `AlphaVantage.macd`
variant.  Each entry mirrors the source ternary literally; in particular
the slowperiod entry is `slowPeriod !== null ? fastPeriod : 26`. -/
def macdQuery (symbol interval : String) (timePeriod : Int)
    (seriesType : String)
    (fastPeriod slowPeriod signalPeriod fastMaType slowMaType signalMaType :
      Option Int) : List (String × QVal) :=
  buildTechnicalQuery "MACD" symbol interval timePeriod seriesType (some
    [("fastperiod", numOrNull (if fastPeriod ≠ none then fastPeriod else some 12)),
     ("slowperiod", numOrNull (if slowPeriod ≠ none then fastPeriod else some 26)),
     ("signalperiod", numOrNull (if signalPeriod ≠ none then signalPeriod else some 9)),
     ("fastmatype", numOrNull (if fastMaType ≠ none then fastMaType else some 0)),
     ("slowmatype", numOrNull (if slowMaType ≠ none then slowMaType else some 0)),
     ("signalmatype", numOrNull (if signalMaType ≠ none then signalMaType else some 0))])

/-- Embedding of the query built by `AlphaVantage.stochf`. -/
def stochfQuery (symbol interval : String) (timePeriod : Int)
    (seriesType : String)
    (fastKPeriod fastDPeriod fastDmaType : Option Int) :
    List (String × QVal) :=
  buildTechnicalQuery "STOCHF" symbol interval timePeriod seriesType (some
    [("fastkperiod", numOrNull (if fastKPeriod ≠ none then fastKPeriod else some 12)),
     ("fastdperiod", numOrNull (if fastDPeriod ≠ none then fastDPeriod else some 26)),
     ("fastdmatype", numOrNull (if fastDmaType ≠ none then fastDmaType else some 9))])

/-- Embedding of the query built by `AlphaVantage.bbands`. -/
def bbandsQuery (symbol interval : String) (timePeriod : Int)
    (seriesType : String) (nbdevup nbdevdn matype : Option Int) :
    List (String × QVal) :=
  buildTechnicalQuery "BBANDS" symbol interval timePeriod seriesType (some
    [("nbdevup", numOrNull (if nbdevup ≠ none then nbdevup else some 2)),
     ("nbdevdn", numOrNull (if nbdevdn ≠ none then nbdevdn else some 2)),
     ("matype", numOrNull (if matype ≠ none then matype else some 0))])

/-- C2 counterexample: MACD built with slowPeriod null and fastPeriod 10
emits slowperiod 26, not 10 — the claimed substitution of the fast-period
value for a null slowPeriod does not happen. -/
theorem macd_slowperiod_null_counterexample :
    queryVal (macdQuery "AAPL" "daily" 10 "close"
        (some 10) none none none none none) "slowperiod"
      = some (QVal.n 26) ∧
    some (QVal.n 26) ≠ some (QVal.n 10) :=
  ⟨by rfl, by decide⟩

/-- C2 amended: the emitted slowperiod parameter reuses the fast-period
argument exactly when slowPeriod is non-null (the slowPeriod argument is
never emitted); when slowPeriod is null the default 26 is emitted. -/
theorem macd_slowperiod_substitution (symbol interval : String)
    (timePeriod : Int) (seriesType : String)
    (fastPeriod slowPeriod signalPeriod fastMaType slowMaType signalMaType :
      Option Int) :
    queryVal (macdQuery symbol interval timePeriod seriesType
        fastPeriod slowPeriod signalPeriod fastMaType slowMaType signalMaType)
        "slowperiod"
      = some (numOrNull (if slowPeriod ≠ none then fastPeriod else some 26)) := by
  cases slowPeriod <;> rfl

/-- C7 (code bug): with every extra parameter null, `stochf` emits the
moving-average-type parameter fastdmatype as 9 — outside the documented
0 to 8 range and not the documented default 0 — while `bbands` does emit
its documented defaults 2, 2, 0. -/
theorem stochf_matype_default_is_9_not_0 :
    queryVal (stochfQuery "AAPL" "daily" 10 "close" none none none)
        "fastdmatype" = some (QVal.n 9) ∧
    QVal.n 9 ≠ QVal.n 0 ∧
    queryVal (bbandsQuery "AAPL" "daily" 10 "close" none none none)
        "nbdevup" = some (QVal.n 2) ∧
    queryVal (bbandsQuery "AAPL" "daily" 10 "close" none none none)
        "nbdevdn" = some (QVal.n 2) ∧
    queryVal (bbandsQuery "AAPL" "daily" 10 "close" none none none)
        "matype" = some (QVal.n 0) :=
  ⟨by rfl, by decide, by rfl, by rfl, by rfl⟩

/-- A flattened quote record as built by `AlphaVantage.timeSeriesIntraday`:
the fixed symbol and source, the parsed date, the five parsed price fields,
and the verbatim upstream per-bar record.  Price values are `Rat`; the date
is the parsed timestamp as `Int`. -/
structure Quote where
  symbol : String
  date : Int
  source : String
  openP : Rat
  highP : Rat
  lowP : Rat
  closeP : Rat
  volumeP : Rat
  original : List (String × String)
deriving DecidableEq

/-- Field access on a per-bar object, as in `o["4. close"]`; `none` models
the JavaScript `undefined`. -/
def barGet (o : List (String × String)) (k : String) : Option String :=
  (o.find? (fun p => p.1 = k)).map Prod.snd

/-- The date comparison used by `_.sortBy(array, 'date')`. -/
def dateLE (a b : Quote) : Prop := a.date ≤ b.date

instance : DecidableRel dateLE :=
  fun a b => inferInstanceAs (Decidable (a.date ≤ b.date))

instance : IsTotal Quote dateLE := ⟨fun a b => Int.le_total a.date b.date⟩

instance : IsTrans Quote dateLE := ⟨fun _ _ _ hab hbc => le_trans hab hbc⟩

/-- The record-construction pass of `timeSeriesIntraday`: one `Quote` per
key of the keyed series, in key-enumeration order.  The external
`new Date(key)` and `Number(...)` builtins are the parameters `parseDate`
and `num`, with `num` also absorbing the undefined-to-NaN coercion for a
missing field; `JSON.stringify(o)` is modelled by keeping the verbatim
per-bar record. -/
def timeSeriesIntradayMap (parseDate : String → Int)
    (num : Option String → Rat) (symbol : String)
    (res : List (String × List (String × String))) : List Quote :=
  res.map (fun kv =>
    { symbol := symbol
      date := parseDate kv.1
      source := "Alpha Vantage"
      openP := num (barGet kv.2 "1. open")
      highP := num (barGet kv.2 "2. high")
      lowP := num (barGet kv.2 "3. low")
      closeP := num (barGet kv.2 "4. close")
      volumeP := num (barGet kv.2 "5. volume")
      original := kv.2 })

/-- Embedding of the `timeSeriesIntraday` flattening step: build one record
per key, then `_.sortBy(array, 'date')`.  The lodash sort is stable and
ascending; it is modelled by the stable `List.insertionSort` on the date
field (every stable sort with respect to the total preorder `dateLE`
produces the same output list). -/
def timeSeriesIntradayFlatten (parseDate : String → Int)
    (num : Option String → Rat) (symbol : String)
    (res : List (String × List (String × String))) : List Quote :=
  List.insertionSort dateLE (timeSeriesIntradayMap parseDate num symbol res)

/-- The Scenario B keyed series, in its upstream key order. -/
def scenBSeries : List (String × List (String × String)) :=
  [("2024-01-02", [("4. close", "100.5")]),
   ("2024-01-03", [("4. close", "101.0")]),
   ("2024-01-01", [("4. close", "99.0")])]

/-- Concrete stand-in for `new Date(key)` on the Scenario B keys. -/
def scenBDate : String → Int := fun s =>
  if s = "2024-01-01" then 20240101
  else if s = "2024-01-02" then 20240102
  else 20240103

/-- Concrete stand-in for `Number(...)` on the Scenario B close strings. -/
def scenBNum : Option String → Rat := fun s =>
  match s with
  | some v =>
    if v = "100.5" then (201 : Rat) / 2
    else if v = "101.0" then 101
    else if v = "99.0" then 99
    else 0
  | none => 0

/-- C4: for every keyed time-series input the flattened output is sorted
non-decreasing by date, has exactly one record per input key, and the sort
is stable (a pair of records in input order whose dates are non-decreasing
stays in that order); on the Scenario B input the three records come out
date-ordered with their respective close values. -/
theorem timeSeriesIntraday_flatten_sorted :
    (∀ (parseDate : String → Int) (num : Option String → Rat)
        (symbol : String) (res : List (String × List (String × String))),
      (timeSeriesIntradayFlatten parseDate num symbol res).Pairwise dateLE ∧
      (timeSeriesIntradayFlatten parseDate num symbol res).length
          = res.length ∧
      ∀ a b : Quote, dateLE a b →
        List.Sublist [a, b] (timeSeriesIntradayMap parseDate num symbol res) →
        List.Sublist [a, b]
          (timeSeriesIntradayFlatten parseDate num symbol res)) ∧
    (timeSeriesIntradayFlatten scenBDate scenBNum "SPY" scenBSeries).map
        Quote.date = [20240101, 20240102, 20240103] ∧
    (timeSeriesIntradayFlatten scenBDate scenBNum "SPY" scenBSeries).map
        Quote.closeP = [99, (201 : Rat) / 2, 101] := by
  refine ⟨fun parseDate num symbol res => ⟨?_, ?_, ?_⟩, ?_, ?_⟩
  · exact List.sorted_insertionSort dateLE _
  · simp [timeSeriesIntradayFlatten, timeSeriesIntradayMap,
      List.length_insertionSort]
  · intro a b hab hsub
    exact List.pair_sublist_insertionSort hab hsub
  · simp [timeSeriesIntradayFlatten, timeSeriesIntradayMap, scenBSeries,
      scenBDate, scenBNum, barGet, dateLE]
  · simp [timeSeriesIntradayFlatten, timeSeriesIntradayMap, scenBSeries,
      scenBDate, scenBNum, barGet, dateLE]

/-- A two-key series whose records tie on the date, for the C4 witness. -/
def wTieSeries : List (String × List (String × String)) :=
  [("2024-02-02", []), ("2024-02-09", [("4. close", "1")])]

/-- Date parse mapping every key to the same instant (a tie). -/
def wTieDate : String → Int := fun _ => 5

/-- Numeric parse returning zero everywhere, for the C4 witness. -/
def wNum : Option String → Rat := fun _ => 0

/-- The first record of the tie series. -/
def wq1 : Quote :=
  { symbol := "SPY", date := 5, source := "Alpha Vantage", openP := 0,
    highP := 0, lowP := 0, closeP := 0, volumeP := 0, original := [] }

/-- The second record of the tie series. -/
def wq2 : Quote :=
  { symbol := "SPY", date := 5, source := "Alpha Vantage", openP := 0,
    highP := 0, lowP := 0, closeP := 0, volumeP := 0,
    original := [("4. close", "1")] }

/-- Witness for C4 at a concrete tie: both stability hypotheses hold and
the tied pair keeps its input order in the sorted output. -/
theorem timeSeriesIntraday_flatten_sorted_witness :
    dateLE wq1 wq2 ∧
    List.Sublist [wq1, wq2] (timeSeriesIntradayFlatten wTieDate wNum "SPY" wTieSeries) :=
  ⟨by decide,
   (timeSeriesIntraday_flatten_sorted.1 wTieDate wNum "SPY" wTieSeries).2.2
     wq1 wq2 (by decide)
     (show List.Sublist [wq1, wq2]
        (timeSeriesIntradayMap wTieDate wNum "SPY" wTieSeries) from
      List.Sublist.refl _)⟩

/-- A flattened technical-indicator record as built by
`AlphaVantage._technical`: the parsed date plus a verbatim copy of every
per-bar field. -/
structure IndicatorRecord where
  date : Int
  fields : List (String × Json)

/-- Embedding of the flattening loop of `_technical`: one record per key of
the keyed payload, in key-enumeration order; `newObject` starts with the
parsed date and copies every per-bar field verbatim.  No sort is applied —
the source returns `array` directly. -/
def technicalFlatten (parseDate : String → Int)
    (res : List (String × List (String × Json))) : List IndicatorRecord :=
  res.map (fun kv => { date := parseDate kv.1, fields := kv.2 })

/-- Date parse for the C5 counterexample payload. -/
def demoParseDate : String → Int := fun s =>
  if s = "2024-01-01" then 1 else 2

/-- A two-key indicator payload whose keys arrive in descending date
order, as Alpha Vantage actually serves them. -/
def demoTechSeries : List (String × List (String × Json)) :=
  [("2024-01-02", [("MACD", Json.str "1.0")]),
   ("2024-01-01", [("MACD", Json.str "2.0")])]

/-- C5 counterexample: for a key order that is descending by date, the
sequence produced by the `_technical` flattening step is not ordered
ascending by date. -/
theorem technical_flatten_not_sorted_counterexample :
    ¬ (technicalFlatten demoParseDate demoTechSeries).Pairwise
        (fun a b => a.date ≤ b.date) := by
  decide

/-- C5 amended: the `_technical` flattening step produces one record per
key carrying the parsed date plus a verbatim copy of every per-bar field,
in the key-enumeration order of the input payload — no sort is applied, so
the output is ascending by date only when the input key order is. -/
theorem technical_flatten_preserves_key_order (parseDate : String → Int)
    (res : List (String × List (String × Json))) :
    (technicalFlatten parseDate res).map IndicatorRecord.fields
        = res.map Prod.snd ∧
    (technicalFlatten parseDate res).map IndicatorRecord.date
        = res.map (fun kv => parseDate kv.1) ∧
    (technicalFlatten parseDate res).length = res.length := by
  refine ⟨?_, ?_, ?_⟩ <;> simp [technicalFlatten]

/-- Trading hours for one date, as built by `Market.parseHours`.  Instants
are `Int` timestamps; a `none` models the JavaScript `null` (the JSON
field `opens_at` is the Lean field `openTime` because `open` is a Lean
keyword, and `closes_at` is `closeTime`). -/
structure TradingHours where
  isOpen : Bool
  openTime : Option Int
  closeTime : Option Int
  extendedOpen : Option Int
  extendedClose : Option Int
  date : Int
  nextTradingDay : String
  previousTradingDay : String
deriving DecidableEq

/-- Model of `moment(now).isAfter(t)`: comparing against the JavaScript
`null` builds an invalid moment, and `isAfter` on an invalid moment is
false. -/
def momentIsAfter (now : Int) (t : Option Int) : Bool :=
  match t with
  | none => false
  | some v => v < now

/-- Embedding of the `async.whilst` loop shared by `Market.getNextOpen`
and `Market.getNextClose` (they differ only in the edge field read), with
an explicit fuel bound on the iteration count.  Each iteration fetches the
hours for `today + days`; if `isOpen` holds and the edge field is non-null
the loop stops with that instant.  Exactly as in the source, `days` is
never changed between iterations, so every iteration fetches the same
date. -/
def nextEdgeLoop (edge : TradingHours → Option Int)
    (fetch : Int → TradingHours) (today days : Int) : Nat → Option Int
  | 0 => none
  | fuel + 1 =>
    let hours := fetch (today + days)
    if hours.isOpen then
      match edge hours with
      | some t => some t
      | none => nextEdgeLoop edge fetch today days fuel
    else nextEdgeLoop edge fetch today days fuel

/-- Embedding of `Market.getNextOpen`: the start offset is 1 when the
reference instant is after the recorded open of the market object's
embedded hours, else 0, and then the loop runs on the open edge. -/
def getNextOpen (marketHours : TradingHours) (now today : Int)
    (fetch : Int → TradingHours) (fuel : Nat) : Option Int :=
  let days : Int := if momentIsAfter now marketHours.openTime then 1 else 0
  nextEdgeLoop TradingHours.openTime fetch today days fuel

/-- Embedding of `Market.getNextClose`, analogous to `getNextOpen` on the
close edge. -/
def getNextClose (marketHours : TradingHours) (now today : Int)
    (fetch : Int → TradingHours) (fuel : Nat) : Option Int :=
  let days : Int := if momentIsAfter now marketHours.closeTime then 1 else 0
  nextEdgeLoop TradingHours.closeTime fetch today days fuel

/-- Modelled from the spec: the CalendarLookahead loop of §4.2, which the
code of `getNextOpen` and `getNextClose` was specified to implement but
does not — starting at the candidate date, fetch the hours; when `isOpen`
holds return the edge field, otherwise advance the candidate date by one
calendar day and repeat (the fuel bounds the search, closing the
unbounded-loop gap flagged in §9). -/
def findNextSessionSpecLoop (edge : TradingHours → Option Int)
    (fetch : Int → TradingHours) (d : Int) : Nat → Option Int
  | 0 => none
  | fuel + 1 =>
    let hours := fetch d
    if hours.isOpen then edge hours
    else findNextSessionSpecLoop edge fetch (d + 1) fuel

/-- Modelled from the spec: `findNextSession` of §4.2 with its start
offset, advancing day by day. -/
def findNextSessionSpec (edge : TradingHours → Option Int)
    (edgeToday : Option Int) (now today : Int)
    (fetch : Int → TradingHours) (fuel : Nat) : Option Int :=
  let startOffset : Int := if momentIsAfter now edgeToday then 1 else 0
  findNextSessionSpecLoop edge fetch (today + startOffset) fuel

/-- A closed day (no session, null edges) for Scenario A. -/
def scenAClosed (d : Int) : TradingHours :=
  { isOpen := false, openTime := none, closeTime := none,
    extendedOpen := none, extendedClose := none, date := d,
    nextTradingDay := "", previousTradingDay := "" }

/-- The open day of Scenario A: day 3 (2024-03-04), session 09:30 to 16:00,
as minutes since 2024-03-01T00:00 local (4890 and 5280). -/
def scenAOpenDay : TradingHours :=
  { isOpen := true, openTime := some 4890, closeTime := some 5280,
    extendedOpen := none, extendedClose := none, date := 3,
    nextTradingDay := "", previousTradingDay := "" }

/-- The Scenario A day-by-day hours fetch: every day closed except day 3. -/
def scenAFetch : Int → TradingHours := fun d =>
  if d = 3 then scenAOpenDay else scenAClosed d

/-- On Scenario A the code loop never returns for any fuel: `days` stays 0,
so every iteration refetches the closed day 0. -/
theorem scenA_loop_none :
    ∀ fuel, nextEdgeLoop TradingHours.openTime scenAFetch 0 0 fuel = none
  | 0 => rfl
  | fuel + 1 => scenA_loop_none fuel

/-- C1 (code bug): on Scenario A (reference instant minute 540 of day 0,
days 0 to 2 closed, day 3 open at minute 4890) `getNextOpen` never returns
the claimed instant — it never returns at all, because the day offset is
never incremented, while the lookahead the spec describes returns the open
instant of day 3. -/
theorem getNextOpen_scenarioA_never_advances :
    (∀ fuel, getNextOpen (scenAFetch 0) 540 0 scenAFetch fuel = none) ∧
    findNextSessionSpec TradingHours.openTime (scenAFetch 0).openTime 540 0
        scenAFetch 4 = some 4890 :=
  ⟨fun fuel => scenA_loop_none fuel, rfl⟩

/-- Whenever the code loop does return an instant, that instant is the
edge field of the single date the loop keeps fetching. -/
theorem nextEdgeLoop_some (edge : TradingHours → Option Int)
    (fetch : Int → TradingHours) (today days : Int) :
    ∀ fuel r, nextEdgeLoop edge fetch today days fuel = some r →
      (fetch (today + days)).isOpen = true ∧
      edge (fetch (today + days)) = some r
  | 0, r, h => Option.noConfusion h
  | fuel + 1, r, h => by
    by_cases ho : (fetch (today + days)).isOpen
    · rcases he : edge (fetch (today + days)) with _ | t
      · have h' : nextEdgeLoop edge fetch today days fuel = some r := by
          simpa [nextEdgeLoop, ho, he] using h
        have hc := (nextEdgeLoop_some edge fetch today days fuel r h').2
        rw [he] at hc
        exact ⟨ho, hc⟩
      · have ht : some t = some r := by simpa [nextEdgeLoop, ho, he] using h
        exact ⟨ho, ht⟩
    · have h' : nextEdgeLoop edge fetch today days fuel = some r := by
        simpa [nextEdgeLoop, ho] using h
      exact nextEdgeLoop_some edge fetch today days fuel r h'

/-- C9: for a fixed reference instant and a fixed deterministic day-by-day
fetch function, any two invocations of `getNextOpen` (or of
`getNextClose`) that return an instant return the same instant, whatever
iteration bounds they run under. -/
theorem findNextSession_idempotent (marketHours : TradingHours)
    (now today : Int) (fetch : Int → TradingHours) :
    (∀ fuel₁ fuel₂ r₁ r₂,
      getNextOpen marketHours now today fetch fuel₁ = some r₁ →
      getNextOpen marketHours now today fetch fuel₂ = some r₂ → r₁ = r₂) ∧
    (∀ fuel₁ fuel₂ r₁ r₂,
      getNextClose marketHours now today fetch fuel₁ = some r₁ →
      getNextClose marketHours now today fetch fuel₂ = some r₂ → r₁ = r₂) := by
  constructor
  · intro fuel₁ fuel₂ r₁ r₂ h₁ h₂
    have a₁ := nextEdgeLoop_some TradingHours.openTime fetch today
      (if momentIsAfter now marketHours.openTime then 1 else 0) fuel₁ r₁ h₁
    have a₂ := nextEdgeLoop_some TradingHours.openTime fetch today
      (if momentIsAfter now marketHours.openTime then 1 else 0) fuel₂ r₂ h₂
    exact Option.some.inj (a₁.2.symm.trans a₂.2)
  · intro fuel₁ fuel₂ r₁ r₂ h₁ h₂
    have a₁ := nextEdgeLoop_some TradingHours.closeTime fetch today
      (if momentIsAfter now marketHours.closeTime then 1 else 0) fuel₁ r₁ h₁
    have a₂ := nextEdgeLoop_some TradingHours.closeTime fetch today
      (if momentIsAfter now marketHours.closeTime then 1 else 0) fuel₂ r₂ h₂
    exact Option.some.inj (a₁.2.symm.trans a₂.2)

/-- An always-open day for the C9 witness: session minute 570 to 960. -/
def wOpenDay : TradingHours :=
  { isOpen := true, openTime := some 570, closeTime := some 960,
    extendedOpen := none, extendedClose := none, date := 0,
    nextTradingDay := "", previousTradingDay := "" }

/-- A fetch function returning the open day for every date. -/
def wFetchOpen : Int → TradingHours := fun _ => wOpenDay

/-- Witness for C9: two invocations with different fuel return the same
open instant, and likewise for the close edge. -/
theorem findNextSession_idempotent_witness :
    getNextOpen wOpenDay 0 0 wFetchOpen 1 = some 570 ∧
    getNextClose wOpenDay 0 0 wFetchOpen 1 = some 960 ∧
    (570 : Int) = 570 ∧ (960 : Int) = 960 :=
  ⟨by decide, by decide,
   (findNextSession_idempotent wOpenDay 0 0 wFetchOpen).1 1 2 570 570
     (by decide) (by decide),
   (findNextSession_idempotent wOpenDay 0 0 wFetchOpen).2 1 2 960 960
     (by decide) (by decide)⟩

/-- The failure taxonomy of the spec for the Robinhood-side response
classifier. -/
inductive RFailure where
  | transport (cause : String)
  | serverOverloaded (detail : String)
  | badStatus (body : String)
  | malformedBody (body : String)

/-- A classified result: a categorized failure or a success payload. -/
inductive RClassified where
  | failure (f : RFailure)
  | success (payload : Json)

/-- JavaScript object property assignment on a JSON object: replaces the
value under an existing key, otherwise appends the key at the end of the
enumeration order. -/
def objAssignJson (kvs : List (String × Json)) (k : String) (v : Json) :
    List (String × Json) :=
  if kvs.any (fun p => p.1 = k) then
    kvs.map (fun p => if p.1 = k then (p.1, v) else p)
  else kvs ++ [(k, v)]

/-- Merge of a continuation payload into the first payload under a fixed
field name, as in the `market.hours = hours` assignment performed by
`Market.getByMIC` before resolving. -/
def mergeUnder (payload : Json) (field : String) (v : Json) : Json :=
  match payload with
  | .obj kvs => .obj (objAssignJson kvs field v)
  | j => j

/-- Modelled from the spec: the single-outcome classification rules of the
ResponseClassifier (`Robinhood.handleResponse`, whose source is not among
the provided files — only its caller `Market.getByMIC` is): a transport
error, the vendor overload marker, a non-200 status and an unparsable body
are categorized failures, in that order; otherwise the parsed payload is a
success. -/
def classifyOnce (parse : String → Option Json) (outcome : TransportOutcome) :
    RClassified :=
  match outcome with
  | .transportError cause => .failure (.transport cause)
  | .httpResult statusCode body =>
    if containsMarker body then .failure (.serverOverloaded "try again")
    else if statusCode ≠ 200 then .failure (.badStatus body)
    else
      match parse body with
      | none => .failure (.malformedBody body)
      | some payload => .success payload

/-- Modelled from the spec: classification with an optional continuation
selector (`Robinhood.handleResponse` as driven by `Market.getByMIC`, which
follows the `todays_hours` reference of the first payload).  On a primary
success, when a selector is supplied and yields a reference, exactly one
continuation fetch runs, its outcome is classified by the same rules, and
on success its payload is merged into the first payload under the fixed
field name; the second component records the continuation references
fetched. -/
def classifyWithContinuation (parse : String → Option Json)
    (continuation : Option (Json → Option String))
    (fetchFn : String → TransportOutcome)
    (outcome : TransportOutcome) : RClassified × List String :=
  match classifyOnce parse outcome with
  | .failure f => (.failure f, [])
  | .success payload =>
    match continuation with
    | none => (.success payload, [])
    | some sel =>
      match sel payload with
      | none => (.success payload, [])
      | some ref =>
        match classifyOnce parse (fetchFn ref) with
        | .failure f => (.failure f, [ref])
        | .success contPayload =>
          (.success (mergeUnder payload "hours" contPayload), [ref])

/-- C8: on a classified success, a supplied continuation selector that
yields no reference leads to success with the original unmerged payload
and no continuation fetch; a selector that yields a reference leads to
exactly one continuation fetch, classified by the same rules, whose
success payload is merged into the first payload under the fixed field
name. -/
theorem classify_continuation_contract
    (parse : String → Option Json) (sel : Json → Option String)
    (fetchFn : String → TransportOutcome) (outcome : TransportOutcome)
    (payload : Json)
    (hs : classifyOnce parse outcome = .success payload) :
    (sel payload = none →
      classifyWithContinuation parse (some sel) fetchFn outcome
        = (.success payload, [])) ∧
    ∀ ref, sel payload = some ref →
      (classifyWithContinuation parse (some sel) fetchFn outcome).2
          = [ref] ∧
      (∀ contPayload,
        classifyOnce parse (fetchFn ref) = .success contPayload →
        (classifyWithContinuation parse (some sel) fetchFn outcome).1
          = .success (mergeUnder payload "hours" contPayload)) ∧
      (∀ f, classifyOnce parse (fetchFn ref) = .failure f →
        (classifyWithContinuation parse (some sel) fetchFn outcome).1
          = .failure f) := by
  constructor
  · intro hn
    simp [classifyWithContinuation, hs, hn]
  · intro ref hr
    refine ⟨?_, ?_, ?_⟩
    · cases hc : classifyOnce parse (fetchFn ref) <;>
        simp [classifyWithContinuation, hs, hr, hc]
    · intro contPayload hcp
      simp [classifyWithContinuation, hs, hr, hcp]
    · intro f hf
      simp [classifyWithContinuation, hs, hr, hf]

/-- The market payload of the C8 witness, carrying a followable
`todays_hours` reference. -/
def wMarketPayload : Json :=
  .obj [("mic", .str "XNAS"), ("todays_hours", .str "hoursurl")]

/-- The continuation (hours) payload of the C8 witness. -/
def wHoursPayload : Json := .obj [("is_open", .bool true)]

/-- Concrete stand-in for `JSON.parse` on the two C8 witness bodies. -/
def wRhParse : String → Option Json := fun s =>
  if s = "marketbody" then some wMarketPayload
  else if s = "hoursbody" then some wHoursPayload
  else none

/-- The continuation selector of the C8 witness: the string under the
`todays_hours` key, when present. -/
def wSel : Json → Option String := fun j =>
  match jsIndex j (some "todays_hours") with
  | some (.str u) => some u
  | _ => none

/-- The continuation fetch of the C8 witness. -/
def wFetchCont : String → TransportOutcome := fun _ =>
  .httpResult 200 "hoursbody"

/-- Witness for C8: on the concrete market payload a single continuation
fetch runs and the hours payload is merged in, and on a payload with no
followable reference the original payload is returned with no fetch. -/
theorem classify_continuation_contract_witness :
    (classifyWithContinuation wRhParse (some wSel) wFetchCont
        (.httpResult 200 "marketbody")).2 = ["hoursurl"] ∧
    (classifyWithContinuation wRhParse (some wSel) wFetchCont
        (.httpResult 200 "marketbody")).1
      = .success (mergeUnder wMarketPayload "hours" wHoursPayload) ∧
    classifyWithContinuation wRhParse (some wSel) wFetchCont
        (.httpResult 200 "hoursbody")
      = (.success wHoursPayload, []) := by
  have h := classify_continuation_contract wRhParse wSel wFetchCont
    (.httpResult 200 "marketbody") wMarketPayload (by rfl)
  have h2 := h.2 "hoursurl" (by rfl)
  have hn := (classify_continuation_contract wRhParse wSel wFetchCont
    (.httpResult 200 "hoursbody") wHoursPayload (by rfl)).1 (by rfl)
  exact ⟨h2.1, h2.2.1 wHoursPayload (by rfl), hn⟩
